import Mathlib

/-
Verification of the Fix evaluation-core model (src/main.rs).

The Rust source is a skeleton of a content-addressed computational model:
blobs and trees identified by names, an accessibility lattice (Ref/Object),
deferred computations (Thunk/Encode) and a reduction engine
(think/execute/eval).  We embed the data model and the operations shallowly:

* Machine integers are modelled as `Nat` with explicit `% 2^32` where the
  source performs an `as u32` cast, `min _ U32_MAX` where it saturates, and
  an explicit overflow check where an unchecked u32 `+` would panic in a
  debug build (wrap in release).
* The storage backend (`load`, `name`, `create` pointer-minting), `apply`
  and `select` are `unimplemented!` in the source; they are external
  collaborators.  Pointers are content addresses (equal pointer iff equal
  content, per the spec), so we model a pointer by the content it addresses:
  a tree name carries its element list, a large-blob pointer carries its
  bytes.  `apply` and `select` are universally quantified parameters of the
  reduction engine.
* The generic `TreeName<T> / Object<T> / Data<T>` are monomorphized exactly
  as the Rust compiler does: the only instantiations in the source are
  `T = Handle` (suffix `H` here) and `T = Value` (suffix `V`).
* Fallible operations return `Except DataH`; a possible panic is an outer
  `Option` (`none` = panic); the reduction loop takes a fuel parameter
  (`none` = fuel exhausted), since `execute`'s loop is deliberately
  unbounded in the source.
-/

namespace FixModel

/-- Units of estimated memory "footprint" (64 KiB), `PAGE_SIZE` in the source. -/
def PAGE_SIZE : Nat := 65536

/-- Size of a Handle in memory (256 bits), `HANDLE_SIZE` in the source. -/
def HANDLE_SIZE : Nat := 32

/-- Largest value of a `u32`. -/
def U32_MAX : Nat := 4294967295

/-- Modulus of `u32` arithmetic (`as u32` casts truncate by this). -/
def U32_MOD : Nat := 4294967296

/-- Rust's `usize::div_ceil`: ceiling division on natural numbers. -/
def divCeil (a b : Nat) : Nat := (a + b - 1) / b

/-- Rust's `u32::saturating_add`, on the `Nat` model of `u32`. -/
def satAdd (a b : Nat) : Nat := min (a + b) U32_MAX

/-- A Blob "Name" identifies a Blob and its length, either by containing its
contents directly (a `Literal`: a 30-byte buffer plus a trailing length byte)
or via a `Pointer` plus an explicit length.  The pointer is modelled by the
byte content it addresses (content addressing). Bytes are `Nat`s below 256. -/
inductive BlobName where
  | Literal : List Nat → Nat → BlobName
  | Name : List Nat → Nat → BlobName
deriving Repr, DecidableEq

mutual
/-- A Tree "Name": the pointer (modelled by the element list it addresses),
`size`, `footprint`, the `eq` flag and the `tag` flag — the `T = Handle`
instantiation of the source's `TreeName<T>`. -/
inductive TreeNameH where
  | mk : List Handle → Nat → Nat → Bool → Bool → TreeNameH

/-- A reference to an inaccessible physical object (Blob or Tree); a Ref's
tree always has the general element kind `Handle`. -/
inductive Ref where
  | blob : BlobName → Ref
  | tree : TreeNameH → Ref

/-- A reference to an accessible physical object — `Object<Handle>`. -/
inductive ObjectH where
  | blob : BlobName → ObjectH
  | tree : TreeNameH → ObjectH

/-- Objects and Refs are "Data" — `Data<Handle>`. -/
inductive DataH where
  | ref : Ref → DataH
  | object : ObjectH → DataH

/-- A deferred computation: an identification, a selection, or an application. -/
inductive Thunk where
  | identification : DataH → Thunk
  | selection : TreeNameH → Thunk
  | application : TreeNameH → Thunk

/-- An instruction requesting that a Thunk be forced and replaced with its
result, optionally with a particular accessibility. -/
inductive Encode where
  | mk : Thunk → Option Bool → Encode

/-- The element type of a Tree: Data, Thunk, or Encode. -/
inductive Handle where
  | data : DataH → Handle
  | thunk : Thunk → Handle
  | encode : Encode → Handle
end

mutual
/-- `TreeName<Value>`: same metadata, element kind `Value`. -/
inductive TreeNameV where
  | mk : List Value → Nat → Nat → Bool → Bool → TreeNameV

/-- `Object<Value>`. -/
inductive ObjectV where
  | blob : BlobName → ObjectV
  | tree : TreeNameV → ObjectV

/-- `Data<Value>`. -/
inductive DataV where
  | ref : Ref → DataV
  | object : ObjectV → DataV

/-- A Value is a Thunk or Data where every accessible object is also a Value
(used to state the evaluation postcondition). -/
inductive Value where
  | data : DataV → Value
  | thunk : Thunk → Value
end

/-- A RuntimeValue is Thunk or (unrestricted) Data. -/
inductive RuntimeValue where
  | data : DataH → RuntimeValue
  | thunk : Thunk → RuntimeValue

/-- Projection: elements addressed by the name's pointer. -/
def TreeNameH.elems : TreeNameH → List Handle
  | .mk e _ _ _ _ => e

/-- Projection: the `size` field. -/
def TreeNameH.size : TreeNameH → Nat
  | .mk _ s _ _ _ => s

/-- Projection: the `footprint` field (`TreeName::footprint` returns it). -/
def TreeNameH.footprint : TreeNameH → Nat
  | .mk _ _ f _ _ => f

/-- Projection: the `eq` flag. -/
def TreeNameH.eqFlag : TreeNameH → Bool
  | .mk _ _ _ q _ => q

/-- Projection: the `tag` flag. -/
def TreeNameH.tag : TreeNameH → Bool
  | .mk _ _ _ _ g => g

/-- The struct-update `TreeName { tag: t, ..n }` used by `try_map`/`relax`. -/
def TreeNameH.setTag : TreeNameH → Bool → TreeNameH
  | .mk e s f q _, g => .mk e s f q g

/-- Projection: elements of a `TreeName<Value>`. -/
def TreeNameV.elems : TreeNameV → List Value
  | .mk e _ _ _ _ => e

/-- Projection: `size` of a `TreeName<Value>`. -/
def TreeNameV.size : TreeNameV → Nat
  | .mk _ s _ _ _ => s

/-- Projection: `footprint` of a `TreeName<Value>`. -/
def TreeNameV.footprint : TreeNameV → Nat
  | .mk _ _ f _ _ => f

/-- Projection: `eq` flag of a `TreeName<Value>`. -/
def TreeNameV.eqFlag : TreeNameV → Bool
  | .mk _ _ _ q _ => q

/-- Projection: `tag` flag of a `TreeName<Value>`. -/
def TreeNameV.tag : TreeNameV → Bool
  | .mk _ _ _ _ g => g

/-- Struct update of the `tag` field on a `TreeName<Value>`. -/
def TreeNameV.setTag : TreeNameV → Bool → TreeNameV
  | .mk e s f q _, g => .mk e s f q g

/-- Projection: the thunk of an Encode. -/
def Encode.thunk : Encode → Thunk
  | .mk t _ => t

/-- Projection: the requested accessibility of an Encode. -/
def Encode.accessibility : Encode → Option Bool
  | .mk _ a => a

/-- `BlobName::load`: a Literal yields the first `length` bytes of its
30-byte buffer (`&storage[0..length]`, in range when `length ≤ 30`); loading
a pointer-backed blob is backend work, modelled by the content the pointer
addresses. -/
def BlobName.load : BlobName → List Nat
  | .Literal storage length => storage.take length
  | .Name content _ => content

/-- `BlobName::size`: always correct without touching storage. -/
def BlobName.size : BlobName → Nat
  | .Literal _ length => length
  | .Name _ length => length

/-- `BlobName::footprint`: `size().div_ceil(PAGE_SIZE) as u32`. -/
def BlobName.footprint (b : BlobName) : Nat :=
  divCeil b.size PAGE_SIZE % U32_MOD

/-- `BlobName::name`. Modelled from the spec: `name(content)` derives a
deterministic content address; small blobs (≤ 30 bytes) are stored inline as
a `Literal` (buffer padded with zeroes to 30 bytes), larger blobs behind a
pointer with explicit length. -/
def BlobName.name (content : List Nat) : BlobName :=
  if content.length ≤ 30 then
    .Literal (content ++ List.replicate (30 - content.length) 0) content.length
  else
    .Name content content.length

/-- `TreeName::load` for the general element kind. Modelled from the spec:
the backend returns the element sequence the pointer addresses. -/
def TreeNameH.load (t : TreeNameH) : List Handle := t.elems

/-- `Handle::footprint` (source line 404): Data forwards, Thunk and Encode
have footprint 0.  `Data::footprint` reads a blob's computed footprint or a
tree name's recorded `footprint` field; a bare Ref contributes 0. -/
def DataH.footprint : DataH → Nat
  | .object (.blob x) => x.footprint
  | .object (.tree x) => x.footprint
  | .ref _ => 0

/-- `HandleType::footprint` for `Handle`. -/
def Handle.footprint : Handle → Nat
  | .data x => x.footprint
  | .thunk _ => 0
  | .encode _ => 0

/-- `Ref::is_eq`: Blobs always are, Trees read the recorded `eq` flag. -/
def Ref.is_eq : Ref → Bool
  | .blob _ => true
  | .tree t => t.eqFlag

/-- `Handle::relax` is the identity (source line 411: `self`). -/
def Handle.relax (h : Handle) : Handle := h

mutual
/-- `HandleType::is_eq` for `Handle` (source line 397): only Data can be eq;
a Thunk or an Encode is never eq. -/
def Handle.is_eq : Handle → Bool
  | .data x => x.is_eq
  | .thunk _ => false
  | .encode _ => false

/-- `Data::is_eq` (source line 373): dispatch to the underlying Object or Ref. -/
def DataH.is_eq : DataH → Bool
  | .object x => x.is_eq
  | .ref x => x.is_eq

/-- `Object::is_eq` (source line 336) is `self.lower().is_eq()`: `true` for a
blob, and for a tree the `eq` flag that `lower`'s `relax`/`create` recomputes
— all elements (each relaxed by the identity `Handle::relax`) are `is_eq`.
Written here in recursion-friendly form; `ObjectH.is_eq_spec` below proves it
equal to the source composition once `lower` is defined. -/
def ObjectH.is_eq : ObjectH → Bool
  | .blob _ => true
  | .tree (.mk e _ _ _ _) => eqAll e

/-- `treedata.iter().all(|h| h.is_eq())` from `TreeName::create` (line 248). -/
def eqAll : List Handle → Bool
  | [] => true
  | h :: rest => h.is_eq && eqAll rest
end

/-- The tree's own encoding cost in pages:
`(treedata.len() * HANDLE_SIZE).div_ceil(PAGE_SIZE)` (line 244), before the
`as u32` cast. -/
def baseFootprint (n : Nat) : Nat := divCeil (n * HANDLE_SIZE) PAGE_SIZE

/-- The saturating fold over the elements' footprints from
`TreeName::create` (lines 245-247):
`treedata.iter().fold(0, |acc: u32, elem| acc.saturating_add(elem.footprint()))`. -/
def footprintSum (elems : List Handle) : Nat :=
  elems.foldl (fun acc e => satAdd acc e.footprint) 0

/-- The footprint computed by `TreeName::create` (line 244), release
semantics: the base cost is cast `as u32` (truncation) and then added to the
saturating element sum with the ordinary u32 `+`, which wraps on overflow in
a release build. -/
def createFootprint (elems : List Handle) : Nat :=
  (baseFootprint elems.length % U32_MOD + footprintSum elems) % U32_MOD

/-- The same computation under debug semantics, where the ordinary u32 `+`
panics on overflow: `none` models the panic. -/
def createFootprintChecked (elems : List Handle) : Option Nat :=
  let base := baseFootprint elems.length % U32_MOD
  let s := footprintSum elems
  if base + s ≤ U32_MAX then some (base + s) else none

/-- `TreeName::create` (lines 242-251).  The metadata is computed exactly as
in the source: `size = treedata.len() as u32`, the footprint formula of
line 244 (release semantics), `eq = all elements is_eq`.  Modelled from the
spec for the parts the skeleton leaves `unimplemented!`: the minted pointer
is the content itself (content addressing), and the `tag` flag is
caller-supplied — every caller in the source overrides it by struct update,
so it defaults to `false` here. -/
def TreeNameH.create (treedata : List Handle) : TreeNameH :=
  .mk treedata (treedata.length % U32_MOD) (createFootprint treedata)
    (treedata.all Handle.is_eq) false

/-- `TreeName::name`. Modelled from the spec: derives the content address
and metadata from already-stored content, deterministically — the same
computation as `create`. -/
def TreeNameH.name (tree : List Handle) : TreeNameH :=
  TreeNameH.create tree

/-- `TreeName::relax` at `T = Handle` (lines 275-285): reload the elements,
relax each (the identity at this kind), re-`create`, and preserve `tag`. -/
def TreeNameH.relax (t : TreeNameH) : TreeNameH :=
  (TreeNameH.create (t.load.map Handle.relax)).setTag t.tag

/-- `Object::relax` at `T = Handle` (lines 348-353). -/
def ObjectH.relax : ObjectH → ObjectH
  | .blob x => .blob x
  | .tree x => .tree x.relax

/-- `Object::lower` (lines 341-346): drop accessibility; the tree name is
relaxed to the general kind. -/
def ObjectH.lower : ObjectH → Ref
  | .blob x => .blob x
  | .tree x => .tree x.relax

/-- `Ref::lift` (lines 322-330): load the underlying object and re-derive
its name; a tree keeps its `tag`. -/
def Ref.lift : Ref → ObjectH
  | .blob x => .blob (BlobName.name x.load)
  | .tree x => .tree ((TreeNameH.name x.load).setTag x.tag)

/-- `Data::lift` (lines 359-364). -/
def DataH.lift : DataH → ObjectH
  | .object x => x.relax
  | .ref x => x.lift

/-- `Data::lower` (lines 366-371). -/
def DataH.lower : DataH → Ref
  | .object x => x.lower
  | .ref x => x

mutual
/-- `HandleType::relax` for `Value` (lines 450-461): embed a Value into the
general Handle kind, relaxing nested value trees. -/
def Value.relax : Value → Handle
  | .thunk x => .thunk x
  | .data (.ref x) => .data (.ref x)
  | .data (.object (.blob x)) => .data (.object (.blob x))
  | .data (.object (.tree x)) => .data (.object (.tree x.relax))

/-- `TreeName::relax` at `T = Value` (lines 275-285): reload, relax every
element (`Value::relax`), re-`create`, preserve `tag`. -/
def TreeNameV.relax : TreeNameV → TreeNameH
  | .mk e _ _ _ g => (TreeNameH.create (relaxList e)).setTag g

/-- `self.load().iter().map(|h| h.relax()).collect()` at `T = Value`. -/
def relaxList : List Value → List Handle
  | [] => []
  | v :: rest => v.relax :: relaxList rest
end

/-- `Object::lower` at `T = Value`. -/
def ObjectV.lower : ObjectV → Ref
  | .blob x => .blob x
  | .tree x => .tree x.relax

/-- `Object::is_eq` at `T = Value`: `self.lower().is_eq()`, literally. -/
def ObjectV.is_eq (o : ObjectV) : Bool := o.lower.is_eq

/-- `Data::is_eq` at `T = Value`. -/
def DataV.is_eq : DataV → Bool
  | .object x => x.is_eq
  | .ref x => x.is_eq

/-- `HandleType::is_eq` for `Value` (lines 436-441). -/
def Value.is_eq : Value → Bool
  | .data x => x.is_eq
  | .thunk _ => false

/-- `Data::footprint` at `T = Value` (lines 380-387). -/
def DataV.footprint : DataV → Nat
  | .object (.blob x) => x.footprint
  | .object (.tree x) => x.footprint
  | .ref _ => 0

/-- `HandleType::footprint` for `Value` (lines 443-448). -/
def Value.footprint : Value → Nat
  | .data x => x.footprint
  | .thunk _ => 0

/-- The saturating element-footprint fold of `TreeName::create` at `T = Value`. -/
def footprintSumV (elems : List Value) : Nat :=
  elems.foldl (fun acc e => satAdd acc e.footprint) 0

/-- The `create` footprint formula at `T = Value` (release semantics). -/
def createFootprintV (elems : List Value) : Nat :=
  (baseFootprint elems.length % U32_MOD + footprintSumV elems) % U32_MOD

/-- `TreeName::create` at `T = Value`; same modelling as `TreeNameH.create`. -/
def TreeNameV.create (treedata : List Value) : TreeNameV :=
  .mk treedata (treedata.length % U32_MOD) (createFootprintV treedata)
    (treedata.all Value.is_eq) false

/-- `TreeName<Value>::load`. Modelled from the spec: the backend returns the
element sequence the pointer addresses. -/
def TreeNameV.load (t : TreeNameV) : List Value := t.elems

/-- Fallible collection, `iter().map(f).collect::<Result<Vec<_>>>()`. -/
def collectResults (f : Handle → Except DataH α) : List Handle → Except DataH (List α)
  | [] => .ok []
  | h :: rest => do
    let v ← f h
    let vs ← collectResults f rest
    pure (v :: vs)

/-- `TreeName::try_map` (lines 261-273) with target kind `Value`: map a
fallible function over the loaded elements, `create` the resulting tree, and
preserve the `tag` flag by struct update. -/
def TreeNameH.try_map_v (t : TreeNameH) (f : Handle → Except DataH Value) :
    Except DataH TreeNameV :=
  (collectResults f t.load).map (fun vec => (TreeNameV.create vec).setTag t.tag)

/-- `TreeName::try_map` with target kind `Handle` (the other monomorphization
the source's signature admits). -/
def TreeNameH.try_map_h (t : TreeNameH) (f : Handle → Except DataH Handle) :
    Except DataH TreeNameH :=
  (collectResults f t.load).map (fun vec => (TreeNameH.create vec).setTag t.tag)

/-- `make_err` (lines 147-155).  The source writes the message into a 30-byte
buffer with `write_all(..).unwrap()`: `write_all` on a fixed slice returns a
`WriteZero` error when the message does not fit, so the `unwrap` panics —
`none` models that panic.  Otherwise the error payload is a literal blob:
the buffer (message padded with zeroes to 30 bytes) and the length byte
`str.as_bytes().len() as u8`. -/
def make_err (str : List Nat) : Option (Except DataH DataH) :=
  if str.length ≤ 30 then
    some (.error (.ref (.blob
      (.Literal (str ++ List.replicate (30 - str.length) 0) (str.length % 256)))))
  else
    none

section Reduction

mutual
/-- The reduction engine, `think` / `execute` / `eval` (lines 139-194),
parametrized by the external collaborators `apply` and `select` (both
`unimplemented!` in the source) and by a fuel bound: `execute`'s drain loop
and `eval`'s recursion through backend-loaded trees are unbounded in the
source, so every recursive call consumes one unit of fuel and `none` means
the fuel ran out.  `think`: one step — an application first fully evaluates
every element of the combination and delegates to `apply`; a selection
delegates to `select`; an identification is already resolved. -/
def think (A : TreeNameV → Except DataH RuntimeValue)
    (S : TreeNameH → Except DataH RuntimeValue) :
    Nat → Thunk → Option (Except DataH RuntimeValue)
  | 0, _ => none
  | fuel + 1, .application combination =>
    match evalTree A S fuel combination with
    | none => none
    | some (.error d) => some (.error d)
    | some (.ok evaluated) => some (A evaluated)
  | _ + 1, .selection spec => some (S spec)
  | _ + 1, .identification x => some (.ok (.data x))

/-- `execute` (lines 160-179): think the thunk until no more thoughts arrive
(i.e. it is Data), then adjust accessibility if requested. -/
def execute (A : TreeNameV → Except DataH RuntimeValue)
    (S : TreeNameH → Except DataH RuntimeValue) :
    Nat → Encode → Option (Except DataH DataH)
  | 0, _ => none
  | fuel + 1, e =>
    match think A S fuel e.thunk with
    | none => none
    | some (.error d) => some (.error d)
    | some (.ok (.thunk thought)) => execute A S fuel (.mk thought e.accessibility)
    | some (.ok (.data x)) =>
      some (.ok (match e.accessibility with
        | none => x
        | some true => .object x.lift
        | some false => .ref x.lower))

/-- `eval` (lines 184-194): Encodes are executed and the result re-evaluated;
accessible trees are recursed into element-wise; blobs, refs and bare thunks
are self-evaluating. -/
def eval (A : TreeNameV → Except DataH RuntimeValue)
    (S : TreeNameH → Except DataH RuntimeValue) :
    Nat → Handle → Option (Except DataH Value)
  | 0, _ => none
  | fuel + 1, .encode e =>
    match execute A S fuel e with
    | none => none
    | some (.error d) => some (.error d)
    | some (.ok d) => eval A S fuel (.data d)
  | fuel + 1, .data (.object (.tree x)) =>
    match evalTree A S fuel x with
    | none => none
    | some (.error d) => some (.error d)
    | some (.ok vt) => some (.ok (.data (.object (.tree vt))))
  | _ + 1, .data (.object (.blob x)) => some (.ok (.data (.object (.blob x))))
  | _ + 1, .data (.ref x) => some (.ok (.data (.ref x)))
  | _ + 1, .thunk thunk => some (.ok (.thunk thunk))

/-- `x.try_map(eval)` as used by `think` and `eval`: evaluate every loaded
element, `create` the value tree, preserve `tag`. -/
def evalTree (A : TreeNameV → Except DataH RuntimeValue)
    (S : TreeNameH → Except DataH RuntimeValue) :
    Nat → TreeNameH → Option (Except DataH TreeNameV)
  | 0, _ => none
  | fuel + 1, t =>
    match evalElems A S fuel t.load with
    | none => none
    | some (.error d) => some (.error d)
    | some (.ok vec) => some (.ok ((TreeNameV.create vec).setTag t.tag))

/-- The fallible element-wise collection inside `try_map(eval)`. -/
def evalElems (A : TreeNameV → Except DataH RuntimeValue)
    (S : TreeNameH → Except DataH RuntimeValue) :
    Nat → List Handle → Option (Except DataH (List Value))
  | 0, _ => none
  | _ + 1, [] => some (.ok [])
  | fuel + 1, h :: rest =>
    match eval A S fuel h with
    | none => none
    | some (.error d) => some (.error d)
    | some (.ok v) =>
      match evalElems A S fuel rest with
      | none => none
      | some (.error d) => some (.error d)
      | some (.ok vs) => some (.ok (v :: vs))
end

end Reduction

/-- Backend operations observable by a caller: loading content, minting a
name for fresh content (`create`), deriving a name for stored content. -/
inductive BackendOp where
  | load : BackendOp
  | create : BackendOp
  | name : BackendOp
deriving Repr, DecidableEq

/-- `TreeName::load` instrumented with the backend operations it performs. -/
def TreeNameH.loadLogged (t : TreeNameH) : List Handle × List BackendOp :=
  (t.load, [.load])

/-- `TreeName::create` instrumented with the backend operations it performs. -/
def TreeNameH.createLogged (treedata : List Handle) : TreeNameH × List BackendOp :=
  (TreeNameH.create treedata, [.create])

/-- `TreeName::relax` at `T = Handle` (lines 275-285), instrumented: the
source body is `TreeName { tag: self.tag, ..TreeName::create(self.load()...) }`
— it loads the elements from the backend, relaxes each (the identity), and
creates a new tree; the log records the backend traffic. -/
def TreeNameH.relaxLogged (t : TreeNameH) : TreeNameH × List BackendOp :=
  let (elems, l1) := t.loadLogged
  let (fresh, l2) := TreeNameH.createLogged (elems.map Handle.relax)
  (fresh.setTag t.tag, l1 ++ l2)

/-- `Object::lower` (lines 341-346), instrumented: a blob is repackaged with
no backend traffic; a tree is relaxed. -/
def ObjectH.lowerLogged : ObjectH → Ref × List BackendOp
  | .blob x => (.blob x, [])
  | .tree x =>
    let (r, l) := x.relaxLogged
    (.tree r, l)

/-- `PartialEq for BlobName` (lines 290-294): the body is
`todo!("equality of BlobNames")` — every comparison panics; `none` models
the panic, `some b` would be a returned boolean. -/
def BlobName.beq (_x _y : BlobName) : Option Bool := none

/-- `PartialEq for TreeName` (lines 299-309): names with different `tag`s
are unequal; two `eq` names hit `todo!("equality of Eq TreeNames")` (`none`);
any other combination is unequal. -/
def TreeNameH.beq (x y : TreeNameH) : Option Bool :=
  if x.tag ≠ y.tag then some false
  else
    match x.eqFlag, y.eqFlag with
    | true, true => none
    | _, _ => some false

/-- `PartialEq for Data` (lines 425-433): lower both sides and compare the
underlying names; mismatched kinds are unequal. -/
def DataH.beq (x y : DataH) : Option Bool :=
  match x.lower, y.lower with
  | .blob a, .blob b => BlobName.beq a b
  | .tree a, .tree b => TreeNameH.beq a b
  | _, _ => some false

/-- `PartialEq for Handle` (lines 416-423): only Data compares to Data;
every other combination is unequal. -/
def Handle.beq (x y : Handle) : Option Bool :=
  match x, y with
  | .data a, .data b => DataH.beq a b
  | _, _ => some false

mutual
/-- The evaluation postcondition of the spec, on the runtime `Handle` kind:
no `Encode` is reachable through accessible structure.  An encode itself
fails it; an accessible tree requires it of every element; blobs, bare refs
and bare thunks reach no further accessible structure. -/
def Handle.noAccessibleEncode : Handle → Bool
  | .encode _ => false
  | .data (.object (.tree (.mk e _ _ _ _))) => noAccessibleEncodeList e
  | .data (.object (.blob _)) => true
  | .data (.ref _) => true
  | .thunk _ => true

/-- Element-wise form of `Handle.noAccessibleEncode`. -/
def noAccessibleEncodeList : List Handle → Bool
  | [] => true
  | h :: rest => h.noAccessibleEncode && noAccessibleEncodeList rest
end

/-- Physical content an accessible object denotes: the loaded bytes of a
blob, or the loaded element sequence of a tree. -/
def ObjectH.contents (o : ObjectH) : List Nat ⊕ List Handle :=
  match o with
  | .blob b => .inl b.load
  | .tree t => .inr t.load

/-- Well-formedness of a blob name, from the source's stated invariants: a
`Literal`'s buffer is exactly 30 bytes and its length byte is at most 30
("the bytes (up to 30) are stored inline"); a pointer-backed name's explicit
length is the length of the addressed content (`size()` is always correct). -/
def BlobName.wf : BlobName → Prop
  | .Literal storage length => storage.length = 30 ∧ length ≤ 30
  | .Name content length => length = content.length

/-- Well-formedness of an object: its blob name, if any, is well-formed. -/
def ObjectH.wf : ObjectH → Prop
  | .blob b => b.wf
  | .tree _ => True

instance : DecidablePred BlobName.wf := by
  intro b
  cases b <;> simp [BlobName.wf] <;> infer_instance

instance : DecidablePred ObjectH.wf := by
  intro o
  cases o <;> simp [ObjectH.wf] <;> infer_instance

/-- Sample data for concrete instantiations: a bare reference to a literal
empty blob. -/
def sampleData : DataH := .ref (.blob (.Literal (List.replicate 30 0) 0))

/-- Sample tree name with no elements. -/
def sampleTree : TreeNameH := .mk [] 0 0 true false

/-- Sample thunk: an identification of `sampleData`. -/
def sampleThunk : Thunk := .identification sampleData

/-- A handle recording the largest representable footprint in its name. -/
def maxFootprintHandle : Handle :=
  .data (.object (.tree (.mk [] 0 U32_MAX true false)))

theorem setTag_tag (t : TreeNameH) (b : Bool) : (t.setTag b).tag = b := by
  cases t; rfl

theorem setTag_elems (t : TreeNameH) (b : Bool) : (t.setTag b).elems = t.elems := by
  cases t; rfl

theorem setTagV_tag (t : TreeNameV) (b : Bool) : (t.setTag b).tag = b := by
  cases t; rfl

theorem create_elems (l : List Handle) : (TreeNameH.create l).elems = l := rfl

theorem map_relax_id (l : List Handle) : l.map Handle.relax = l := List.map_id' l

theorem eqAll_eq_all (l : List Handle) : eqAll l = l.all Handle.is_eq := by
  induction l with
  | nil => rfl
  | cons h rest ih => simp [eqAll, ih]

/-- Faithfulness of `ObjectH.is_eq` to the source composition
`self.lower().is_eq()` (line 336). -/
theorem ObjectH.is_eq_spec (o : ObjectH) : o.is_eq = o.lower.is_eq := by
  cases o with
  | blob b => rfl
  | tree t =>
    cases t with
    | mk e s f q g =>
      simp [ObjectH.is_eq, ObjectH.lower, Ref.is_eq, TreeNameH.relax,
        TreeNameH.load, TreeNameH.elems, TreeNameH.create, TreeNameH.setTag,
        TreeNameH.eqFlag, TreeNameH.tag, map_relax_id, eqAll_eq_all]

theorem foldl_satAdd_le (f : α → Nat) (l : List α) :
    ∀ acc, acc ≤ U32_MAX →
      l.foldl (fun a e => satAdd a (f e)) acc ≤ U32_MAX := by
  induction l with
  | nil => intro acc h; exact h
  | cons x rest ih =>
    intro acc _
    exact ih (satAdd acc (f x)) (min_le_right _ _)

theorem footprintSum_le (l : List Handle) : footprintSum l ≤ U32_MAX :=
  foldl_satAdd_le Handle.footprint l 0 (Nat.zero_le _)

/-- C10: only accessible objects contribute to footprint accounting. A datum
that is a bare Ref has footprint 0 no matter what footprint its underlying
name records, and a Handle that is a Thunk or an Encode — or a Value that is
a Thunk — has footprint 0. -/
theorem c10_only_accessible_footprint :
    ∀ (r : Ref) (t : Thunk) (e : Encode) (t' : Thunk),
      (DataH.ref r).footprint = 0 ∧
      (Handle.thunk t).footprint = 0 ∧
      (Handle.encode e).footprint = 0 ∧
      (Value.thunk t').footprint = 0 := by
  intro r t e t'
  exact ⟨rfl, rfl, rfl, rfl⟩

/-- C9: public equality only ever holds between equality-comparable data.
A Handle holding a Thunk or an Encode compares unequal to every Handle, in
both operand positions (hence also to itself); a TreeName whose `eq` flag is
false, or whose `tag` differs from the other operand's, compares unequal to
every TreeName (hence also to itself) — so `PartialEq` on `Handle` and on
`TreeName` is not reflexive. -/
theorem c9_partial_eq_not_reflexive :
    ∀ (h : Handle) (t : Thunk) (e : Encode) (x y : TreeNameH),
      Handle.beq (.thunk t) h = some false ∧
      Handle.beq h (.thunk t) = some false ∧
      Handle.beq (.encode e) h = some false ∧
      Handle.beq h (.encode e) = some false ∧
      (x.eqFlag = false → x.beq y = some false) ∧
      (x.tag ≠ y.tag → x.beq y = some false) := by
  intro h t e x y
  refine ⟨by cases h <;> rfl, by cases h <;> rfl, by cases h <;> rfl,
    by cases h <;> rfl, ?_, ?_⟩
  · intro hq
    unfold TreeNameH.beq
    split
    · rfl
    · rw [hq]
  · intro hg
    unfold TreeNameH.beq
    rw [if_pos hg]

/-- Witness for C9 at concrete inputs: a thunk handle is unequal to itself,
and a non-`eq` tree name and a tag-mismatched pair are unequal. -/
theorem c9_witness :
    Handle.beq (.thunk sampleThunk) (.thunk sampleThunk) = some false ∧
    TreeNameH.beq (.mk [] 0 0 false false) (.mk [] 0 0 false false) = some false ∧
    TreeNameH.beq (.mk [] 0 0 true false) (.mk [] 0 0 true true) = some false := by
  refine ⟨?_, ?_, ?_⟩
  · exact (c9_partial_eq_not_reflexive (.thunk sampleThunk) sampleThunk
      (.mk sampleThunk none) sampleTree sampleTree).1
  · exact (c9_partial_eq_not_reflexive (.thunk sampleThunk) sampleThunk
      (.mk sampleThunk none) (.mk [] 0 0 false false) (.mk [] 0 0 false false)).2.2.2.2.1 rfl
  · exact (c9_partial_eq_not_reflexive (.thunk sampleThunk) sampleThunk
      (.mk sampleThunk none) (.mk [] 0 0 true false) (.mk [] 0 0 true true)).2.2.2.2.2
      (by decide)

/-- C7: the `eq` flag computed at tree creation is true iff every element is
itself `is_eq`; blob names are always `eq`; a tree created with a non-`eq`
element (a bare Thunk or an Encode is never `eq`) has `eq = false`. -/
theorem c7_eq_propagation :
    ∀ (elems : List Handle) (h : Handle) (b : BlobName) (t : Thunk) (e : Encode),
      ((TreeNameH.create elems).eqFlag = true ↔ ∀ x ∈ elems, x.is_eq = true) ∧
      (Ref.blob b).is_eq = true ∧
      (h ∈ elems → h.is_eq = false → (TreeNameH.create elems).eqFlag = false) ∧
      Handle.is_eq (.thunk t) = false ∧
      Handle.is_eq (.encode e) = false := by
  intro elems h b t e
  have hcr : (TreeNameH.create elems).eqFlag = elems.all Handle.is_eq := rfl
  refine ⟨?_, rfl, ?_, rfl, rfl⟩
  · rw [hcr]; exact List.all_eq_true
  · intro hm hf
    rw [hcr]
    cases hall : elems.all Handle.is_eq with
    | false => rfl
    | true =>
      have := List.all_eq_true.mp hall h hm
      rw [hf] at this
      cases this

/-- Witness for C7: a tree created from a single bare thunk is not `eq`, and
a concrete blob name is `eq`. -/
theorem c7_witness :
    (TreeNameH.create [Handle.thunk sampleThunk]).eqFlag = false ∧
    (Ref.blob (.Literal (List.replicate 30 0) 2)).is_eq = true := by
  refine ⟨?_, ?_⟩
  · exact (c7_eq_propagation [Handle.thunk sampleThunk] (.thunk sampleThunk)
      (.Literal (List.replicate 30 0) 2) sampleThunk (.mk sampleThunk none)).2.2.1
      (by simp) rfl
  · exact (c7_eq_propagation [Handle.thunk sampleThunk] (.thunk sampleThunk)
      (.Literal (List.replicate 30 0) 2) sampleThunk (.mk sampleThunk none)).2.1

/-- C8: `try_map` (at both element kinds the source's signature admits) and
`relax` (at both kinds) copy the `tag` flag of the name they transform,
whatever the mapped function does. -/
theorem c8_tag_preservation :
    ∀ (t : TreeNameH) (tv : TreeNameV) (f : Handle → Except DataH Value)
      (g : Handle → Except DataH Handle) (rv : TreeNameV) (rh : TreeNameH),
      (t.try_map_v f = .ok rv → rv.tag = t.tag) ∧
      (t.try_map_h g = .ok rh → rh.tag = t.tag) ∧
      (TreeNameH.relax t).tag = t.tag ∧
      (TreeNameV.relax tv).tag = tv.tag := by
  intro t tv f g rv rh
  refine ⟨?_, ?_, setTag_tag _ _, ?_⟩
  · intro hok
    unfold TreeNameH.try_map_v at hok
    cases hc : collectResults f t.load with
    | error d => rw [hc] at hok; simp [Except.map] at hok
    | ok vec =>
      rw [hc] at hok
      simp only [Except.map] at hok
      cases hok
      exact setTagV_tag _ _
  · intro hok
    unfold TreeNameH.try_map_h at hok
    cases hc : collectResults g t.load with
    | error d => rw [hc] at hok; simp [Except.map] at hok
    | ok vec =>
      rw [hc] at hok
      simp only [Except.map] at hok
      cases hok
      exact setTag_tag _ _
  · cases tv with
    | mk e s f q g' => simp [TreeNameV.relax, setTag_tag, TreeNameV.tag]

/-- Witness for C8: a concrete `try_map` over a tagged empty tree keeps its
`tag`, as does `relax`. -/
theorem c8_witness :
    ((TreeNameV.create []).setTag true).tag = (TreeNameH.mk [] 0 0 true true).tag ∧
    (TreeNameH.relax (.mk [] 0 0 true true)).tag = (TreeNameH.mk [] 0 0 true true).tag := by
  refine ⟨?_, ?_⟩
  · exact (c8_tag_preservation (.mk [] 0 0 true true) (.mk [] 0 0 true true)
      (fun _ => .ok (.thunk sampleThunk)) (fun h => .ok h)
      ((TreeNameV.create []).setTag true) sampleTree).1 rfl
  · exact (c8_tag_preservation (.mk [] 0 0 true true) (.mk [] 0 0 true true)
      (fun _ => .ok (.thunk sampleThunk)) (fun h => .ok h)
      ((TreeNameV.create []).setTag true) sampleTree).2.2.1

/-- C2: evaluation of `make_err` at the spec's own example message,
"this message is going to be much longer than thirty bytes" (57 bytes).
The source does `write_all` of the whole message into the 30-byte buffer and
`unwrap`s the result, which panics (`WriteZero`) for any message over 30
bytes — it does not truncate.  For contrast, the second conjunct shows the
30-byte-or-shorter behaviour: content padded into the buffer and the length
byte equal to the full message length. -/
theorem c2_make_err_panics_on_long_message :
    make_err [116, 104, 105, 115, 32, 109, 101, 115, 115, 97, 103, 101, 32,
      105, 115, 32, 103, 111, 105, 110, 103, 32, 116, 111, 32, 98, 101, 32,
      109, 117, 99, 104, 32, 108, 111, 110, 103, 101, 114, 32, 116, 104, 97,
      110, 32, 116, 104, 105, 114, 116, 121, 32, 98, 121, 116, 101, 115] = none ∧
    make_err [111, 107] =
      some (.error (.ref (.blob
        (.Literal ([111, 107] ++ List.replicate 28 0) 2)))) := by
  exact ⟨rfl, rfl⟩

/-- C3 counterexample: lowering an accessible tree object performs backend
operations — the claim that `lower` and `relax` invoke no backend `load`,
`name` or `create` is false at this concrete input. -/
theorem c3_counterexample :
    ((ObjectH.tree (.mk [] 0 0 true false)).lowerLogged).2 ≠ [] := by
  decide

/-- C3 amended: `relax` preserves the `tag` flag and leaves the physical
elements unchanged (`Handle::relax` is the identity), and `lower` of a blob
touches no backend; but `relax` — and therefore `lower` of a tree — performs
exactly one backend `load` and one backend `create` per call. -/
theorem c3_lower_relax_backend_amended :
    ∀ (t : TreeNameH) (b : BlobName),
      (t.relaxLogged).2 = [.load, .create] ∧
      (t.relaxLogged).1.tag = t.tag ∧
      (t.relaxLogged).1.elems = t.elems ∧
      ((ObjectH.tree t).lowerLogged).2 = [.load, .create] ∧
      ((ObjectH.blob b).lowerLogged).2 = [] := by
  intro t b
  refine ⟨rfl, ?_, ?_, rfl, rfl⟩
  · simp [TreeNameH.relaxLogged, TreeNameH.loadLogged, TreeNameH.createLogged,
      setTag_tag]
  · simp [TreeNameH.relaxLogged, TreeNameH.loadLogged, TreeNameH.createLogged,
      setTag_elems, create_elems, TreeNameH.load, map_relax_id]

/-- C4 counterexample: a one-element vector whose element records footprint
`u32::MAX` in its name.  The element fold saturates at `u32::MAX`, but the
final addition of the tree's own encoding cost (1 page) is an ordinary u32
`+`: in a release build it wraps to 0 — below the claimed lower bound
`ceil(1 * HANDLE_SIZE / PAGE_SIZE) = 1` and not the saturated `u32::MAX` —
and in a debug build it panics (the checked model returns `none`). -/
theorem c4_counterexample :
    (TreeNameH.create [maxFootprintHandle]).footprint = 0 ∧
    createFootprintChecked [maxFootprintHandle] = none ∧
    baseFootprint 1 = 1 := by
  refine ⟨by decide, by decide, by decide⟩

/-- C4 amended: the per-element accumulation does saturate (it never exceeds
`u32::MAX`), and whenever the final addition of the base cost does not
overflow u32, the created footprint equals base cost plus element sum and is
at least `ceil(size * HANDLE_SIZE / PAGE_SIZE)`; but that final addition is
unchecked, so the computation as a whole can overflow (wrap in release,
panic in debug), as the counterexample shows. -/
theorem c4_footprint_lower_bound_amended :
    ∀ (elems : List Handle),
      elems.length ≤ U32_MAX →
      footprintSum elems ≤ U32_MAX ∧
      (baseFootprint elems.length + footprintSum elems ≤ U32_MAX →
        (TreeNameH.create elems).footprint =
          baseFootprint elems.length + footprintSum elems ∧
        baseFootprint elems.length ≤ (TreeNameH.create elems).footprint ∧
        createFootprintChecked elems =
          some ((TreeNameH.create elems).footprint)) := by
  intro elems hlen
  have hbase : baseFootprint elems.length < U32_MOD := by
    have h1 : elems.length * HANDLE_SIZE + PAGE_SIZE - 1 ≤
        U32_MAX * HANDLE_SIZE + PAGE_SIZE - 1 := by
      have := Nat.mul_le_mul_right HANDLE_SIZE hlen
      omega
    have h2 : (elems.length * HANDLE_SIZE + PAGE_SIZE - 1) / PAGE_SIZE ≤
        (U32_MAX * HANDLE_SIZE + PAGE_SIZE - 1) / PAGE_SIZE :=
      Nat.div_le_div_right h1
    have h3 : (U32_MAX * HANDLE_SIZE + PAGE_SIZE - 1) / PAGE_SIZE < U32_MOD := by
      decide
    calc baseFootprint elems.length
        = (elems.length * HANDLE_SIZE + PAGE_SIZE - 1) / PAGE_SIZE := rfl
      _ ≤ (U32_MAX * HANDLE_SIZE + PAGE_SIZE - 1) / PAGE_SIZE := h2
      _ < U32_MOD := h3
  have hmod : baseFootprint elems.length % U32_MOD = baseFootprint elems.length :=
    Nat.mod_eq_of_lt hbase
  refine ⟨footprintSum_le elems, ?_⟩
  intro hno
  have hsum : baseFootprint elems.length + footprintSum elems < U32_MOD := by
    have : U32_MAX < U32_MOD := by decide
    omega
  have hfp : (TreeNameH.create elems).footprint =
      baseFootprint elems.length + footprintSum elems := by
    show createFootprint elems = _
    unfold createFootprint
    rw [hmod, Nat.mod_eq_of_lt hsum]
  refine ⟨hfp, ?_, ?_⟩
  · rw [hfp]; exact Nat.le_add_right _ _
  · unfold createFootprintChecked
    simp only [hmod]
    rw [if_pos hno, hfp]

/-- Witness for C4 amended at a concrete small input: a one-element vector
whose element has footprint 5 gets footprint `1 + 5` and the checked (debug)
computation agrees. -/
theorem c4_witness :
    footprintSum [Handle.data (.object (.tree (.mk [] 0 5 true false)))] ≤ U32_MAX ∧
    (TreeNameH.create [Handle.data (.object (.tree (.mk [] 0 5 true false)))]).footprint =
      baseFootprint 1 + footprintSum [Handle.data (.object (.tree (.mk [] 0 5 true false)))] ∧
    createFootprintChecked [Handle.data (.object (.tree (.mk [] 0 5 true false)))] =
      some ((TreeNameH.create [Handle.data (.object (.tree (.mk [] 0 5 true false)))]).footprint) := by
  have h := c4_footprint_lower_bound_amended
    [Handle.data (.object (.tree (.mk [] 0 5 true false)))] (by decide)
  exact ⟨h.1, (h.2 (by decide)).1, (h.2 (by decide)).2.2⟩

/-- C6: for every well-formed accessible object, lowering and then lifting
denotes the same content (the loaded bytes of a blob, the loaded elements of
a tree) — accessibility is the only thing the round trip changes; and
lowering is idempotent: `lower` of already-lowered data is that same Ref. -/
theorem c6_lower_lift_roundtrip :
    ∀ (o : ObjectH) (d : DataH), o.wf →
      (Ref.lift o.lower).contents = o.contents ∧
      DataH.lower (.ref d.lower) = d.lower := by
  intro o d hwf
  refine ⟨?_, rfl⟩
  cases o with
  | blob b =>
    cases b with
    | Literal storage len =>
      obtain ⟨h30, hlen⟩ := hwf
      have hcl : (storage.take len).length = len := by
        rw [List.length_take, h30]; omega
      have hname : BlobName.name (storage.take len) =
          .Literal (storage.take len ++ List.replicate (30 - len) 0) len := by
        unfold BlobName.name
        rw [hcl, if_pos hlen]
      simp only [ObjectH.lower, Ref.lift, ObjectH.contents, BlobName.load, hname]
      have := List.take_left (storage.take len) (List.replicate (30 - len) 0)
      rw [hcl] at this
      rw [this]
    | Name content len =>
      have hlen : len = content.length := hwf
      subst hlen
      by_cases hc : content.length ≤ 30
      · have hname : BlobName.name content =
            .Literal (content ++ List.replicate (30 - content.length) 0)
              content.length := by
          unfold BlobName.name
          rw [if_pos hc]
        simp only [ObjectH.lower, Ref.lift, ObjectH.contents, BlobName.load, hname]
        rw [List.take_left content (List.replicate (30 - content.length) 0)]
      · have hname : BlobName.name content = .Name content content.length := by
          unfold BlobName.name
          rw [if_neg hc]
        simp only [ObjectH.lower, Ref.lift, ObjectH.contents, BlobName.load, hname]
  | tree t =>
    simp [ObjectH.lower, Ref.lift, ObjectH.contents, TreeNameH.load,
      TreeNameH.name, TreeNameH.relax, create_elems, setTag_elems,
      map_relax_id]

/-- Witness for C6 at a concrete blob object: three bytes of value 7 survive
the lower/lift round trip, and double lowering is single lowering. -/
theorem c6_witness :
    (Ref.lift ((ObjectH.blob (.Literal (List.replicate 30 7) 3)).lower)).contents =
      (ObjectH.blob (.Literal (List.replicate 30 7) 3)).contents ∧
    DataH.lower (.ref sampleData.lower) = sampleData.lower := by
  exact c6_lower_lift_roundtrip (.blob (.Literal (List.replicate 30 7) 3))
    sampleData (by decide)

/-- C5: `execute` repeatedly applies `think` to the current thunk — a thunk
result replaces the current thunk, the loop stopping at the first Data
result — then returns that data unchanged when the requested accessibility
is `None`, its `lift` when `Some(true)`, its `lower` when `Some(false)`; a
`think` failure is propagated unchanged. -/
theorem c5_execute_drains_and_adjusts :
    ∀ (A : TreeNameV → Except DataH RuntimeValue)
      (S : TreeNameH → Except DataH RuntimeValue) (fuel : Nat) (e : Encode),
      (∀ d, think A S fuel e.thunk = some (.error d) →
        execute A S (fuel + 1) e = some (.error d)) ∧
      (∀ x, think A S fuel e.thunk = some (.ok (.data x)) →
        execute A S (fuel + 1) e = some (.ok (match e.accessibility with
          | none => x
          | some true => .object x.lift
          | some false => .ref x.lower))) ∧
      (∀ t, think A S fuel e.thunk = some (.ok (.thunk t)) →
        execute A S (fuel + 1) e = execute A S fuel (.mk t e.accessibility)) := by
  intro A S fuel e
  refine ⟨?_, ?_, ?_⟩ <;> intro z h <;> simp [execute, h]

/-- Witness for C5, exercising all three shapes: a failing `think` is
propagated; a Data result is returned (accessibility `None` leaves it
unchanged); a Thunk result replaces the current thunk and the loop
continues. -/
theorem c5_witness :
    execute (fun _ => .ok (.thunk sampleThunk)) (fun _ => .error sampleData) 2
      (.mk (.selection sampleTree) none) = some (.error sampleData) ∧
    execute (fun _ => .ok (.thunk sampleThunk)) (fun _ => .error sampleData) 2
      (.mk sampleThunk none) = some (.ok sampleData) ∧
    execute (fun _ => .ok (.thunk sampleThunk)) (fun _ => .error sampleData) 4
      (.mk (.application sampleTree) none) =
      execute (fun _ => .ok (.thunk sampleThunk)) (fun _ => .error sampleData) 3
      (.mk sampleThunk none) := by
  refine ⟨?_, ?_, ?_⟩
  · exact (c5_execute_drains_and_adjusts (fun _ => .ok (.thunk sampleThunk))
      (fun _ => .error sampleData) 1 (.mk (.selection sampleTree) none)).1
      sampleData rfl
  · exact (c5_execute_drains_and_adjusts (fun _ => .ok (.thunk sampleThunk))
      (fun _ => .error sampleData) 1 (.mk sampleThunk none)).2.1 sampleData rfl
  · exact (c5_execute_drains_and_adjusts (fun _ => .ok (.thunk sampleThunk))
      (fun _ => .error sampleData) 3 (.mk (.application sampleTree) none)).2.2
      sampleThunk rfl

theorem noAccessibleEncodeList_relaxList :
    ∀ (l : List Value), (∀ w ∈ l, (Value.relax w).noAccessibleEncode = true) →
      noAccessibleEncodeList (relaxList l) = true := by
  intro l
  induction l with
  | nil => intro _; rfl
  | cons w rest ih =>
    intro hall
    have h1 : (Value.relax w).noAccessibleEncode = true := hall w (by simp)
    have h2 := ih (fun x hx => hall x (by simp [hx]))
    simp [relaxList, noAccessibleEncodeList, h1, h2]

theorem noAccessibleEncode_relax_aux :
    ∀ (n : Nat) (v : Value), sizeOf v ≤ n →
      (Value.relax v).noAccessibleEncode = true := by
  intro n
  induction n with
  | zero =>
    intro v hv
    exfalso
    cases v <;> simp at hv
  | succ n ih =>
    intro v hv
    match v with
    | .thunk t => simp [Value.relax, Handle.noAccessibleEncode]
    | .data (.ref r) => simp [Value.relax, Handle.noAccessibleEncode]
    | .data (.object (.blob b)) => simp [Value.relax, Handle.noAccessibleEncode]
    | .data (.object (.tree (.mk l s f q g))) =>
      have hsize : ∀ w ∈ l, sizeOf w ≤ n := by
        intro w hw
        have h1 := List.sizeOf_lt_of_mem hw
        simp at hv
        omega
      have hlist := noAccessibleEncodeList_relaxList l
        (fun w hw => ih w (hsize w hw))
      simpa [Value.relax, TreeNameV.relax, Handle.noAccessibleEncode,
        TreeNameH.setTag, TreeNameH.create] using hlist

/-- Every Value, viewed back at the runtime Handle kind, contains no
accessible Encode: the Value refinement really carries the evaluation
postcondition. -/
theorem noAccessibleEncode_relax (v : Value) :
    (Value.relax v).noAccessibleEncode = true :=
  noAccessibleEncode_relax_aux (sizeOf v) v (Nat.le_refl _)

/-- C1: whenever `eval` succeeds, the returned Value — viewed back at the
runtime Handle kind — contains no accessible Encode anywhere in its
reachable structure: encodes were executed and recursively evaluated,
accessible trees were evaluated element-wise, and blobs, bare references and
bare thunks reach no accessible Encode. -/
theorem c1_eval_no_accessible_encode :
    ∀ (A : TreeNameV → Except DataH RuntimeValue)
      (S : TreeNameH → Except DataH RuntimeValue) (fuel : Nat) (h : Handle)
      (v : Value),
      eval A S fuel h = some (.ok v) →
      (Value.relax v).noAccessibleEncode = true := by
  intro A S fuel h v _
  exact noAccessibleEncode_relax v

/-- Witness for C1: a concrete successful evaluation (a bare blob reference
evaluates to itself) whose result satisfies the postcondition. -/
theorem c1_witness :
    eval (fun _ => .error sampleData) (fun _ => .error sampleData) 1
      (.data (.ref (.blob (.Literal (List.replicate 30 0) 0)))) =
      some (.ok (.data (.ref (.blob (.Literal (List.replicate 30 0) 0))))) ∧
    (Value.relax
      (.data (.ref (.blob (.Literal (List.replicate 30 0) 0))))).noAccessibleEncode
      = true := by
  exact ⟨rfl, c1_eval_no_accessible_encode (fun _ => .error sampleData)
    (fun _ => .error sampleData) 1
    (.data (.ref (.blob (.Literal (List.replicate 30 0) 0))))
    (.data (.ref (.blob (.Literal (List.replicate 30 0) 0)))) rfl⟩

end FixModel
